import Mathlib

/-!
Shallow embedding of the graphql-pg-mongo server core
(`src/server/server.js` together with its models `src/server/models/dogs.sql`
and the model wiring module).

The program federates two stores:
* a relational table `public.dogs` with columns
  `id serial UNIQUE NOT NULL`, `name varchar NOT NULL`,
  `breed varchar(60) NOT NULL`, `walkerId varchar` — modelled by `PgState`;
* a document collection `users` with mongoose schema
  `{ name: String, dogIds: [Number] }` plus the generated `_id` —
  modelled by `MongoState`.

The resolvers of `server.js` are embedded one by one:
`Mutation.createUser`, `Mutation.createDog`, `Query.users`, `Query.dogs`,
`Dog.walker`, `User.dogs`.  Store availability is injected as explicit
boolean parameters (`pgUp`, `mongoUp`): `false` means the corresponding
store call throws (connection failure / rejected write), which is the
failure the resolvers' `try/catch` blocks react to.  A `varchar(60)`
overflow is modelled separately because it is decided by the data.
-/

/-- A row of the relational table `public.dogs`. -/
structure Dog where
  id : Nat
  name : String
  breed : String
  walkerId : String
deriving Repr, DecidableEq

/-- A document of the mongo collection `users`
(schema `{ name: String, dogIds: [Number] }` plus the generated `_id`). -/
structure Walker where
  _id : String
  name : String
  dogIds : List Nat
deriving Repr, DecidableEq

/-- The relational store: the rows of `public.dogs` in their natural
(insertion) order, plus the `serial` counter that generates `id`. -/
structure PgState where
  rows : List Dog
  nextId : Nat
deriving Repr, DecidableEq

/-- The document store: the documents of the `users` collection. -/
structure MongoState where
  users : List Walker
deriving Repr, DecidableEq

/-- The combined persistent state of the two backing stores. -/
structure State where
  pg : PgState
  mongo : MongoState
deriving Repr, DecidableEq

/-- Store-level error conditions (§7 of the spec): the store connection is
down, or the store rejects the write (e.g. a `varchar(60)` overflow). -/
inductive StoreErr where
  | unavailable
  | rejected
deriving Repr, DecidableEq

/-- An error surfaced by a resolver: either a store error that propagated
uncaught, or the `TypeError` thrown by `data.rows[0]` when `data` stayed
`null` after a caught insert failure (`server.js` line 101). -/
inductive MutErr where
  | store (e : StoreErr)
  | nullDeref
deriving Repr, DecidableEq

/-- The `INSERT INTO public.dogs ... RETURNING *` issued by `createDog`
(`server.js` lines 85-94).  Fails when the store is down; the store rejects
the row when `breed` overflows the `varchar(60)` column of `dogs.sql`.
Otherwise the row is appended with the `serial`-generated id. -/
def pgInsertDog (pg : PgState) (pgUp : Bool) (name breed walkerId : String) :
    Except StoreErr (Dog × PgState) :=
  if pgUp = false then .error .unavailable
  else if breed.length > 60 then .error .rejected
  else
    let dog : Dog := { id := pg.nextId, name := name, breed := breed, walkerId := walkerId }
    .ok (dog, { rows := pg.rows ++ [dog], nextId := pg.nextId + 1 })

/-- The mongo update `User.updateOne({ _id }, { $push: { dogIds: dogId } })`
(`server.js` lines 107-112): the first document whose `_id` equals
`walkerId` gets `dogId` appended to its `dogIds`; with no match the update
is a no-op. -/
def pushDogId (users : List Walker) (walkerId : String) (dogId : Nat) : List Walker :=
  match users with
  | [] => []
  | w :: ws =>
    if w._id = walkerId then { w with dogIds := w.dogIds ++ [dogId] } :: ws
    else w :: pushDogId ws walkerId dogId

/-- A mongo value, as far as the `users` documents need: the schema stores
strings (`_id`, `name`) and a number array (`dogIds`). -/
inductive MVal where
  | str (s : String)
  | num (n : Nat)
  | arr (ns : List Nat)
deriving Repr, DecidableEq

/-- The fields a `users` document actually carries, per the mongoose schema
(`_id`, `name`, `dogIds`). -/
def Walker.fields (w : Walker) : List (String × MVal) :=
  [("_id", .str w._id), ("name", .str w.name), ("dogIds", .arr w.dogIds)]

/-- Mongo equality-filter semantics: the document matches `{ key: v }` iff
it has a field named `key` whose value is `v`. -/
def matchesEq (w : Walker) (key : String) (v : MVal) : Bool :=
  w.fields.lookup key == some v

/-- `User.findOne(filter)`: the first matching document, or `null` when
nothing matches; the call itself fails when the store is down. -/
def mongoFindOne (users : List Walker) (key : String) (v : MVal) (mongoUp : Bool) :
    Except MutErr (Option Walker) :=
  if mongoUp then .ok (users.find? (fun w => matchesEq w key v))
  else .error (.store .unavailable)

/-- First `users` document whose `_id` is `wid` (the way `_id` lookups
resolve; `_id` carries a unique index, so first match is the match). -/
def findWalker (users : List Walker) (wid : String) : Option Walker :=
  users.find? (fun w => w._id == wid)

/-- `Mutation.createUser` (`server.js` lines 70-81): builds the document
(mongoose assigns the generated `newId` at construction), tries to save it,
catches and logs a failing save, and returns the document either way. -/
def createUser (st : State) (name newId : String) (mongoUp : Bool) :
    Except MutErr Walker × State :=
  let user : Walker := { _id := newId, name := name, dogIds := [] }
  if mongoUp then
    (.ok user, { st with mongo := { users := st.mongo.users ++ [user] } })
  else
    (.ok user, st)

deriving instance DecidableEq for Except

/-- Outcome of `Mutation.createDog`: the value or error returned to the
caller, the resulting store state, and whether the step-2 append
(`User.updateOne`) was attempted at all. -/
structure CreateDogResult where
  result : Except MutErr Dog
  state : State
  appendAttempted : Bool
deriving Repr, DecidableEq

/-- `Mutation.createDog` (`server.js` lines 83-120).  Step 1 inserts the
row; a failing insert is caught and logged, after which `data.rows[0]`
throws on the `null` data, so the mutation errors without attempting the
append.  After a successful insert, step 2 pushes the new id onto the
walker's `dogIds`; a failing push is caught and logged and the dog is
returned as a success anyway. -/
def createDog (st : State) (name breed walkerId : String) (pgUp mongoUp : Bool) :
    CreateDogResult :=
  match pgInsertDog st.pg pgUp name breed walkerId with
  | .error _ =>
    { result := .error .nullDeref, state := st, appendAttempted := false }
  | .ok (dog, pg') =>
    if mongoUp then
      { result := .ok dog
        state := { pg := pg', mongo := { users := pushDogId st.mongo.users walkerId dog.id } }
        appendAttempted := true }
    else
      { result := .ok dog, state := { st with pg := pg' }, appendAttempted := true }

/-- `Query.dogs` (`server.js` lines 132-141): `SELECT * FROM dogs`; a
failing query is caught and logged and the resolver returns `[]`. -/
def listDogs (st : State) (pgUp : Bool) : Except MutErr (List Dog) :=
  if pgUp then .ok st.pg.rows else .ok []

/-- `Query.users` (`server.js` line 128): `User.find()` with no catch, so
a store failure propagates to the caller. -/
def listUsers (st : State) (mongoUp : Bool) : Except MutErr (List Walker) :=
  if mongoUp then .ok st.mongo.users else .error (.store .unavailable)

/-- Outcome of the `User.dogs` field resolver: the resolved value or error,
and the id sets of the relational queries it issued. -/
structure DogsFieldResult where
  result : Except MutErr (List Dog)
  queries : List (List Nat)
deriving Repr, DecidableEq

/-- `User.dogs` (`server.js` lines 156-168): with an empty `dogIds` the
resolver returns `[]` without touching the store; otherwise it issues one
`SELECT * FROM dogs WHERE id IN (dogIds)` (the rows whose id is among
`dogIds`, in table order) with no catch, so a store failure propagates. -/
def resolveUserDogs (st : State) (w : Walker) (pgUp : Bool) : DogsFieldResult :=
  if w.dogIds.isEmpty then
    { result := .ok [], queries := [] }
  else if pgUp then
    { result := .ok (st.pg.rows.filter (fun d => decide (d.id ∈ w.dogIds)))
      queries := [w.dogIds] }
  else
    { result := .error (.store .unavailable), queries := [w.dogIds] }

/-- `Dog.walker` (`server.js` lines 146-151): `User.findOne({ dogId:
root.id })` — an equality filter on a field named `dogId`, returned
directly (no catch). -/
def resolveDogWalker (st : State) (d : Dog) (mongoUp : Bool) :
    Except MutErr (Option Walker) :=
  mongoFindOne st.mongo.users "dogId" (.num d.id) mongoUp

/-- The cross-store referential-integrity invariant (§3 of the spec):
every dog row whose `walkerId` denotes an existing walker appears exactly
once in that walker's `dogIds`. -/
def RefIntegrity (st : State) : Prop :=
  ∀ d ∈ st.pg.rows, ∀ w ∈ st.mongo.users,
    w._id = d.walkerId → w.dogIds.count d.id = 1

/-- The empty initial state: no rows, no documents, `serial` counter at 1. -/
def initState : State := { pg := { rows := [], nextId := 1 }, mongo := { users := [] } }

/-- States reachable from the empty stores through the two create
mutations with both stores up (so no step-2 write failure occurs).  The
document store generates each new walker's `_id` uniquely among the
existing walker documents (`_id` has a unique index). -/
inductive Reachable : State → Prop where
  | init : Reachable initState
  | stepUser {st st' : State} (name newId : String)
      (hfresh : ∀ w ∈ st.mongo.users, w._id ≠ newId)
      (h : Reachable st)
      (hst : st' = (createUser st name newId true).2) : Reachable st'
  | stepDog {st st' : State} (name breed walkerId : String)
      (h : Reachable st)
      (hst : st' = (createDog st name breed walkerId true true).state) : Reachable st'

/-- Like `Reachable`, but the id generated for a new walker is additionally
required to differ from every `walkerId` string already stored in a dog
row, so that a dangling dog reference can never be captured by a later
walker creation. -/
inductive ReachableStrong : State → Prop where
  | init : ReachableStrong initState
  | stepUser {st st' : State} (name newId : String)
      (hfresh : ∀ w ∈ st.mongo.users, w._id ≠ newId)
      (hfreshPg : ∀ d ∈ st.pg.rows, d.walkerId ≠ newId)
      (h : ReachableStrong st)
      (hst : st' = (createUser st name newId true).2) : ReachableStrong st'
  | stepDog {st st' : State} (name breed walkerId : String)
      (h : ReachableStrong st)
      (hst : st' = (createDog st name breed walkerId true true).state) : ReachableStrong st'

/-- The effect of the `$push` update on a single document: append `dogId`
when the `_id` matches, leave the document alone otherwise.  When walker
ids are duplicate-free, `pushDogId` coincides with mapping this over the
collection. -/
def updWalker (walkerId : String) (dogId : Nat) (w : Walker) : Walker :=
  if w._id = walkerId then { w with dogIds := w.dogIds ++ [dogId] } else w

/-- The auxiliary inductive invariant of the reachable states: dog ids and
the ids referenced from walkers stay below the `serial` counter, walker
ids are duplicate-free, and cross-store referential integrity holds. -/
structure StoreInv (st : State) : Prop where
  dogIdLt : ∀ d ∈ st.pg.rows, d.id < st.pg.nextId
  refLt : ∀ w ∈ st.mongo.users, ∀ i ∈ w.dogIds, i < st.pg.nextId
  nodupIds : (st.mongo.users.map Walker._id).Nodup
  integ : ∀ d ∈ st.pg.rows, ∀ w ∈ st.mongo.users,
    w._id = d.walkerId → w.dogIds.count d.id = 1

/-- A store state with one walker document and no dog rows. -/
def stAlice : State :=
  { pg := { rows := [], nextId := 1 }, mongo := { users := [⟨"w1", "Alice", []⟩] } }

/-- A store state with one dog row referencing walker `"w1"` that also
appears once in that walker's `dogIds`. -/
def stC1 : State :=
  { pg := { rows := [⟨1, "Ponzu", "Pomeranian", "w1"⟩], nextId := 2 }
    mongo := { users := [⟨"w1", "Alice", [1]⟩] } }

/-- A store state with one dog row and no walker documents. -/
def stDogs : State :=
  { pg := { rows := [⟨1, "Rex", "Lab", "w0"⟩], nextId := 2 }, mongo := { users := [] } }

/-- A state reached from empty stores by creating a dog with the dangling
walker id `"w0"` and then creating a walker whose generated id happens to
be `"w0"`. -/
def stC7bad : State :=
  (createUser ((createDog initState "Rex" "Lab" "w0" true true).state) "Alice" "w0" true).2

/-- A state reached from empty stores by creating a walker and then a dog
owned by it. -/
def stC7good : State :=
  (createDog ((createUser initState "Alice" "w1" true).2) "Ponzu" "Pom" "w1" true true).state

/-- A 61-character breed string, one character past the `varchar(60)`
bound of `dogs.sql`. -/
def breed61 : String := "aaaaaaaaaaaaaaaaaaaaaaaaaaaaaaaaaaaaaaaaaaaaaaaaaaaaaaaaaaaaa"

/-- A state with two dog rows in table order, for order-related checks. -/
def stTwoDogs : State :=
  { pg := { rows := [⟨1, "Rex", "Lab", "w1"⟩, ⟨2, "Miki", "Husky", "w1"⟩], nextId := 3 }
    mongo := { users := [] } }

lemma updWalker_id (walkerId : String) (dogId : Nat) (w : Walker) :
    (updWalker walkerId dogId w)._id = w._id := by
  unfold updWalker; split <;> rfl

lemma map_updWalker_of_forall_ne {users : List Walker} {walkerId : String} (dogId : Nat)
    (h : ∀ w ∈ users, w._id ≠ walkerId) :
    users.map (updWalker walkerId dogId) = users := by
  have hcong : ∀ w ∈ users, updWalker walkerId dogId w = id w := by
    intro w hw
    simp [updWalker, h w hw]
  rw [List.map_congr_left hcong, List.map_id]

lemma pushDogId_eq_map {users : List Walker} (walkerId : String) (dogId : Nat)
    (h : (users.map Walker._id).Nodup) :
    pushDogId users walkerId dogId = users.map (updWalker walkerId dogId) := by
  induction users with
  | nil => rfl
  | cons w ws ih =>
    rw [List.map_cons, List.nodup_cons] at h
    by_cases hid : w._id = walkerId
    · have hws : ∀ w' ∈ ws, w'._id ≠ walkerId := by
        intro w' hw' heq
        exact h.1 (hid ▸ heq ▸ List.mem_map_of_mem Walker._id hw')
      simp [pushDogId, updWalker, hid, map_updWalker_of_forall_ne dogId hws]
    · simp [pushDogId, updWalker, hid, ih h.2]

lemma findWalker_cons_pos {w0 : Walker} (ws : List Walker) {walkerId : String}
    (h : w0._id = walkerId) : findWalker (w0 :: ws) walkerId = some w0 := by
  unfold findWalker
  exact List.find?_cons_of_pos ws (by simp [h])

lemma findWalker_cons_neg {w0 : Walker} (ws : List Walker) {walkerId : String}
    (h : ¬ w0._id = walkerId) : findWalker (w0 :: ws) walkerId = findWalker ws walkerId := by
  unfold findWalker
  exact List.find?_cons_of_neg ws (by simp [h])

lemma findWalker_pushDogId {users : List Walker} {walkerId : String} {w : Walker} (dogId : Nat)
    (h : findWalker users walkerId = some w) :
    findWalker (pushDogId users walkerId dogId) walkerId =
      some { w with dogIds := w.dogIds ++ [dogId] } := by
  induction users with
  | nil => simp [findWalker] at h
  | cons w0 ws ih =>
    by_cases hid : w0._id = walkerId
    · have hw0 : w0 = w := by
        rw [findWalker_cons_pos ws hid] at h
        exact Option.some.inj h
      subst hw0
      have hpush : pushDogId (w0 :: ws) walkerId dogId =
          { w0 with dogIds := w0.dogIds ++ [dogId] } :: ws := by
        simp [pushDogId, hid]
      rw [hpush]
      exact findWalker_cons_pos ws hid
    · rw [findWalker_cons_neg ws hid] at h
      have hpush : pushDogId (w0 :: ws) walkerId dogId =
          w0 :: pushDogId ws walkerId dogId := by
        simp [pushDogId, hid]
      rw [hpush, findWalker_cons_neg _ hid]
      exact ih h

lemma matchesEq_dogId (w : Walker) (v : MVal) : matchesEq w "dogId" v = false := by
  rfl

lemma resolveDogWalker_eq_none (st : State) (d : Dog) :
    resolveDogWalker st d true = .ok none := by
  unfold resolveDogWalker mongoFindOne
  simp [List.find?_eq_none, matchesEq_dogId]

lemma createDog_insert_fail {st : State} {name breed walkerId : String} {pgUp mongoUp : Bool}
    (h : pgUp = false ∨ breed.length > 60) :
    createDog st name breed walkerId pgUp mongoUp =
      { result := .error .nullDeref, state := st, appendAttempted := false } := by
  rcases h with h | h
  · subst h
    simp [createDog, pgInsertDog]
  · cases pgUp with
    | false => simp [createDog, pgInsertDog]
    | true => simp [createDog, pgInsertDog, h]

lemma createDog_ok_push {st : State} {name breed walkerId : String}
    (hbreed : breed.length ≤ 60) :
    createDog st name breed walkerId true true =
      { result := .ok ⟨st.pg.nextId, name, breed, walkerId⟩
        state := { pg := { rows := st.pg.rows ++ [⟨st.pg.nextId, name, breed, walkerId⟩]
                           nextId := st.pg.nextId + 1 }
                   mongo := { users := pushDogId st.mongo.users walkerId st.pg.nextId } }
        appendAttempted := true } := by
  have hb : ¬ breed.length > 60 := by omega
  simp [createDog, pgInsertDog, hb]

lemma createDog_ok_nopush {st : State} {name breed walkerId : String}
    (hbreed : breed.length ≤ 60) :
    createDog st name breed walkerId true false =
      { result := .ok ⟨st.pg.nextId, name, breed, walkerId⟩
        state := { pg := { rows := st.pg.rows ++ [⟨st.pg.nextId, name, breed, walkerId⟩]
                           nextId := st.pg.nextId + 1 }
                   mongo := st.mongo }
        appendAttempted := true } := by
  have hb : ¬ breed.length > 60 := by omega
  simp [createDog, pgInsertDog, hb]

lemma resolveUserDogs_of_ne {st : State} {w : Walker} (pgUp : Bool) (h : w.dogIds ≠ []) :
    resolveUserDogs st w pgUp =
      if pgUp then
        { result := .ok (st.pg.rows.filter (fun d => decide (d.id ∈ w.dogIds)))
          queries := [w.dogIds] }
      else
        { result := .error (.store .unavailable), queries := [w.dogIds] } := by
  have hne : w.dogIds.isEmpty = false := by
    simp [List.isEmpty_iff, h]
  simp [resolveUserDogs, hne]

lemma storeInv_init : StoreInv initState := by
  constructor <;> simp [initState]

lemma createUser_ok (st : State) (name newId : String) :
    createUser st name newId true =
      (.ok ⟨newId, name, []⟩,
        { st with mongo := { users := st.mongo.users ++ [⟨newId, name, []⟩] } }) := by
  simp [createUser]

lemma storeInv_stepUser {st : State} (name newId : String)
    (hfresh : ∀ w ∈ st.mongo.users, w._id ≠ newId)
    (hfreshPg : ∀ d ∈ st.pg.rows, d.walkerId ≠ newId)
    (hinv : StoreInv st) : StoreInv (createUser st name newId true).2 := by
  rw [createUser_ok]
  constructor
  · exact hinv.dogIdLt
  · intro w hw i hi
    simp at hw
    rcases hw with hw | hw
    · exact hinv.refLt w hw i hi
    · subst hw
      simp at hi
  · simp only [List.map_append, List.map_cons, List.map_nil]
    rw [List.nodup_append]
    refine ⟨hinv.nodupIds, by simp, ?_⟩
    intro a ha hb
    simp at hb
    rcases List.mem_map.mp ha with ⟨w, hw, hwa⟩
    exact hfresh w hw (hwa.trans hb)
  · intro d hd w hw hid
    simp at hd hw
    rcases hw with hw | hw
    · exact hinv.integ d hd w hw hid
    · subst hw
      exact absurd hid.symm (hfreshPg d hd)

lemma storeInv_stepDog {st : State} (name breed walkerId : String)
    (hinv : StoreInv st) : StoreInv (createDog st name breed walkerId true true).state := by
  by_cases hb : breed.length > 60
  · rw [createDog_insert_fail (Or.inr hb)]
    exact hinv
  · have hble : breed.length ≤ 60 := by omega
    rw [createDog_ok_push hble]
    rw [pushDogId_eq_map walkerId st.pg.nextId hinv.nodupIds]
    constructor
    · intro d hd
      simp at hd
      rcases hd with hd | hd
      · exact Nat.lt_succ_of_lt (hinv.dogIdLt d hd)
      · subst hd
        exact Nat.lt_succ_self _
    · intro w hw i hi
      simp at hw
      rcases hw with ⟨w0, hw0, rfl⟩
      show i < st.pg.nextId + 1
      by_cases hm : w0._id = walkerId
      · rw [show updWalker walkerId st.pg.nextId w0 =
            { w0 with dogIds := w0.dogIds ++ [st.pg.nextId] } by simp [updWalker, hm]] at hi
        simp at hi
        rcases hi with hi | hi
        · exact Nat.lt_succ_of_lt (hinv.refLt w0 hw0 i hi)
        · subst hi
          exact Nat.lt_succ_self _
      · rw [show updWalker walkerId st.pg.nextId w0 = w0 by simp [updWalker, hm]] at hi
        exact Nat.lt_succ_of_lt (hinv.refLt w0 hw0 i hi)
    · show ((st.mongo.users.map (updWalker walkerId st.pg.nextId)).map Walker._id).Nodup
      rw [List.map_map]
      have hcong : ∀ w ∈ st.mongo.users,
          (Walker._id ∘ updWalker walkerId st.pg.nextId) w = Walker._id w := by
        intro w _
        exact updWalker_id walkerId st.pg.nextId w
      rw [List.map_congr_left hcong]
      exact hinv.nodupIds
    · intro d hd w hw hid
      simp at hd hw
      rcases hw with ⟨w0, hw0, rfl⟩
      have hid' : w0._id = d.walkerId := by
        rw [← updWalker_id walkerId st.pg.nextId w0]
        exact hid
      rcases hd with hd | hd
      · by_cases hm : w0._id = walkerId
        · rw [show updWalker walkerId st.pg.nextId w0 =
              { w0 with dogIds := w0.dogIds ++ [st.pg.nextId] } by simp [updWalker, hm]]
          show (w0.dogIds ++ [st.pg.nextId]).count d.id = 1
          rw [List.count_append]
          have h1 : w0.dogIds.count d.id = 1 := hinv.integ d hd w0 hw0 hid'
          have h2 : [st.pg.nextId].count d.id = 0 := by
            rw [List.count_eq_zero]
            intro hmem
            simp at hmem
            exact absurd (hmem ▸ hinv.dogIdLt d hd) (lt_irrefl _)
          omega
        · rw [show updWalker walkerId st.pg.nextId w0 = w0 by simp [updWalker, hm]]
          exact hinv.integ d hd w0 hw0 hid'
      · subst hd
        have hm : w0._id = walkerId := hid'
        rw [show updWalker walkerId st.pg.nextId w0 =
            { w0 with dogIds := w0.dogIds ++ [st.pg.nextId] } by simp [updWalker, hm]]
        show (w0.dogIds ++ [st.pg.nextId]).count st.pg.nextId = 1
        rw [List.count_append]
        have h0 : w0.dogIds.count st.pg.nextId = 0 := by
          rw [List.count_eq_zero]
          intro hmem
          exact absurd (hinv.refLt w0 hw0 _ hmem) (lt_irrefl _)
        simp [h0]

lemma storeInv_of_reachableStrong {st : State} (h : ReachableStrong st) : StoreInv st := by
  induction h with
  | init => exact storeInv_init
  | stepUser name newId hfresh hfreshPg h hst ih =>
    subst hst
    exact storeInv_stepUser name newId hfresh hfreshPg ih
  | stepDog name breed walkerId h hst ih =>
    subst hst
    exact storeInv_stepDog name breed walkerId ih

/-- Claim C1: for every animal with a non-null `walkerId` denoting an
existing walker, resolving `Dog.walker` should return that walker, the
lookup matching the walker's identity against the animal's `walkerId`.
The code violates this: `server.js` line 149 filters on a field `dogId`
that no `users` document carries, so even at a state holding a walker
whose `_id` equals the dog's `walkerId` the field resolves to `null`
instead of that walker. -/
theorem C1_walker_lookup_ignores_walkerId :
    (⟨1, "Ponzu", "Pomeranian", "w1"⟩ : Dog) ∈ stC1.pg.rows ∧
    (∃ w ∈ stC1.mongo.users, w._id = (⟨1, "Ponzu", "Pomeranian", "w1"⟩ : Dog).walkerId) ∧
    resolveDogWalker stC1 ⟨1, "Ponzu", "Pomeranian", "w1"⟩ true = .ok none := by
  refine ⟨by decide, ⟨⟨"w1", "Alice", [1]⟩, by decide, by decide⟩, ?_⟩
  exact resolveDogWalker_eq_none stC1 _

/-- Claim C10: for every animal whose `Dog.walker` lookup matches no
walker document, the field resolves to `null` (here `Except.ok none`)
rather than raising an error. -/
theorem C10_walker_miss_is_null (st : State) (d : Dog)
    (hmiss : st.mongo.users.find? (fun w => matchesEq w "dogId" (.num d.id)) = none) :
    resolveDogWalker st d true = .ok none := by
  unfold resolveDogWalker mongoFindOne
  simp [hmiss]

theorem C10_walker_miss_is_null_witness :
    stC1.mongo.users.find? (fun w => matchesEq w "dogId" (.num (1 : Nat))) = none ∧
    resolveDogWalker stC1 ⟨1, "Ponzu", "Pomeranian", "w1"⟩ true = .ok none :=
  ⟨by decide, C10_walker_miss_is_null stC1 ⟨1, "Ponzu", "Pomeranian", "w1"⟩ (by decide)⟩

/-- Claim C5: an empty `dogIds` resolves `User.dogs` to `[]` with zero
relational queries; a non-empty `dogIds` issues exactly one relational
query carrying the full id set. -/
theorem C5_dogs_field_calls (st : State) (w : Walker) (pgUp : Bool) :
    (w.dogIds = [] → resolveUserDogs st w pgUp = { result := .ok [], queries := [] }) ∧
    (w.dogIds ≠ [] → (resolveUserDogs st w pgUp).queries = [w.dogIds]) := by
  constructor
  · intro h
    simp [resolveUserDogs, h]
  · intro h
    rw [resolveUserDogs_of_ne pgUp h]
    cases pgUp <;> simp

theorem C5_dogs_field_calls_witness :
    resolveUserDogs stAlice ⟨"w1", "Alice", []⟩ true = { result := .ok [], queries := [] } ∧
    (resolveUserDogs stTwoDogs ⟨"w1", "Ann", [2, 1]⟩ true).queries = [[2, 1]] :=
  ⟨(C5_dogs_field_calls stAlice ⟨"w1", "Alice", []⟩ true).1 rfl,
   (C5_dogs_field_calls stTwoDogs ⟨"w1", "Ann", [2, 1]⟩ true).2 (by decide)⟩

/-- Claim C8: the step-2 append is attempted only when the step-1 insert
succeeded, and a failed insert makes the whole mutation fail with no
synchronization attempted and the stores untouched. -/
theorem C8_append_only_after_insert (st : State) (name breed walkerId : String)
    (pgUp mongoUp : Bool) :
    ((createDog st name breed walkerId pgUp mongoUp).appendAttempted = true →
      pgUp = true ∧ breed.length ≤ 60) ∧
    (pgUp = false ∨ breed.length > 60 →
      createDog st name breed walkerId pgUp mongoUp =
        { result := .error .nullDeref, state := st, appendAttempted := false }) := by
  constructor
  · intro hatt
    by_contra hcon
    have h : pgUp = false ∨ breed.length > 60 := by
      cases pgUp with
      | false => exact Or.inl rfl
      | true =>
        by_cases hb : breed.length ≤ 60
        · exact absurd ⟨rfl, hb⟩ hcon
        · exact Or.inr (by omega)
    rw [createDog_insert_fail h] at hatt
    simp at hatt
  · exact fun h => createDog_insert_fail h

theorem C8_append_only_after_insert_witness :
    createDog stAlice "Rex" "Lab" "w1" false true =
      { result := .error .nullDeref, state := stAlice, appendAttempted := false } :=
  (C8_append_only_after_insert stAlice "Rex" "Lab" "w1" false true).2 (Or.inl rfl)

/-- Claim C6 as stated is false: with an over-long breed the store does
reject the insert, but `createDog` catches and logs that error and the
mutation then fails with the `data.rows[0]` null dereference, not with the
write-rejected error itself.  No row is added. -/
theorem C6_rejected_insert_surfaces_nullDeref :
    breed61.length > 60 ∧
    createDog stAlice "Rex" breed61 "w1" true true =
      { result := .error .nullDeref, state := stAlice, appendAttempted := false } ∧
    (createDog stAlice "Rex" breed61 "w1" true true).result ≠ .error (.store .rejected) := by
  decide

/-- Claim C6 amended: a `createDog` whose breed exceeds 60 characters
fails (the write-rejected store error is caught and logged and the
mutation then errors on the null `data`), and no row is added to the
relational table. -/
theorem C6_amended_breed_bound (st : State) (name breed walkerId : String) (mongoUp : Bool)
    (h : breed.length > 60) :
    createDog st name breed walkerId true mongoUp =
      { result := .error .nullDeref, state := st, appendAttempted := false } :=
  createDog_insert_fail (Or.inr h)

theorem C6_amended_breed_bound_witness :
    createDog stAlice "Rex" breed61 "w1" true true =
      { result := .error .nullDeref, state := stAlice, appendAttempted := false } :=
  C6_amended_breed_bound stAlice "Rex" breed61 "w1" true (by decide)

/-- Claim C3 as stated is false: at a state whose dogs table is non-empty,
a failed `createUser` save still returns the (unsaved) user and a failed
`Query.dogs` scan returns a normal-looking empty list — exactly the
silent conversions the claim rules out. -/
theorem C3_silent_success_shapes :
    (createUser stDogs "Alice" "w9" false).1 = .ok ⟨"w9", "Alice", []⟩ ∧
    (createUser stDogs "Alice" "w9" false).2.mongo.users = [] ∧
    listDogs stDogs false = .ok [] ∧
    stDogs.pg.rows ≠ [] := by
  decide

/-- Claim C3 amended: a failed store call surfaces as an error for
`createDog`'s insert, for `Query.users`, for `User.dogs` and for
`Dog.walker`; but `createUser` converts a failed save into returning the
unsaved entity, and `Query.dogs` converts a failed scan into an empty
list. -/
theorem C3_amended_error_surfacing :
    (∀ st : State, ∀ name breed walkerId : String, ∀ mongoUp : Bool,
      (createDog st name breed walkerId false mongoUp).result = .error .nullDeref) ∧
    (∀ st : State, listUsers st false = .error (.store .unavailable)) ∧
    (∀ st : State, ∀ w : Walker, w.dogIds ≠ [] →
      (resolveUserDogs st w false).result = .error (.store .unavailable)) ∧
    (∀ st : State, ∀ d : Dog, resolveDogWalker st d false = .error (.store .unavailable)) ∧
    (∀ st : State, ∀ name newId : String,
      createUser st name newId false = (.ok ⟨newId, name, []⟩, st)) ∧
    (∀ st : State, listDogs st false = .ok []) := by
  refine ⟨?_, ?_, ?_, ?_, ?_, ?_⟩
  · intro st name breed walkerId mongoUp
    rw [createDog_insert_fail (Or.inl rfl)]
  · intro st
    rfl
  · intro st w h
    rw [resolveUserDogs_of_ne false h]
    rfl
  · intro st d
    rfl
  · intro st name newId
    rfl
  · intro st
    rfl

theorem C3_amended_error_surfacing_witness :
    (resolveUserDogs stDogs ⟨"w1", "Ann", [1]⟩ false).result = .error (.store .unavailable) :=
  C3_amended_error_surfacing.2.2.1 stDogs ⟨"w1", "Ann", [1]⟩ (by decide)

/-- Claim C2 as stated is false: when the step-1 insert succeeds and the
step-2 append fails, the row does exist and the walker's `dogIds` does
not include the new id, but the mutation returns the dog as a success
(`server.js` catches the append error and still returns `dog`), not a
failure. -/
theorem C2_append_failure_reports_success :
    (createDog stAlice "Ponzu" "Pomeranian" "w1" true false).result =
      .ok ⟨1, "Ponzu", "Pomeranian", "w1"⟩ ∧
    (⟨1, "Ponzu", "Pomeranian", "w1"⟩ : Dog) ∈
      (createDog stAlice "Ponzu" "Pomeranian" "w1" true false).state.pg.rows ∧
    (∀ w ∈ (createDog stAlice "Ponzu" "Pomeranian" "w1" true false).state.mongo.users,
      (1 : Nat) ∉ w.dogIds) := by
  decide

/-- Claim C2 amended: with the step-1 insert succeeding and the step-2
append failing, the animal row exists in the relational store, the
walker documents are untouched (so no `dogs` resolution can include the
new animal), but the mutation returns the animal as an apparent success
instead of reporting failure. -/
theorem C2_amended_partial_write (st : State) (name breed walkerId : String)
    (hbreed : breed.length ≤ 60)
    (hfresh : ∀ w ∈ st.mongo.users, st.pg.nextId ∉ w.dogIds) :
    (createDog st name breed walkerId true false).result =
      .ok ⟨st.pg.nextId, name, breed, walkerId⟩ ∧
    (⟨st.pg.nextId, name, breed, walkerId⟩ : Dog) ∈
      (createDog st name breed walkerId true false).state.pg.rows ∧
    (createDog st name breed walkerId true false).state.mongo = st.mongo ∧
    (∀ w ∈ (createDog st name breed walkerId true false).state.mongo.users, ∀ l,
      (resolveUserDogs (createDog st name breed walkerId true false).state w true).result =
        .ok l →
      (⟨st.pg.nextId, name, breed, walkerId⟩ : Dog) ∉ l) := by
  rw [createDog_ok_nopush hbreed]
  refine ⟨rfl, by simp, rfl, ?_⟩
  intro w hw l hl hmem
  by_cases hne : w.dogIds = []
  · simp [resolveUserDogs, hne] at hl
    subst hl
    simp at hmem
  · rw [resolveUserDogs_of_ne true hne] at hl
    simp at hl
    subst hl
    simp [List.mem_append, List.mem_filter] at hmem
    rcases hmem with ⟨-, hid⟩ | hid <;> exact hfresh w hw hid

theorem C2_amended_partial_write_witness :
    (createDog stAlice "Ponzu" "Pomeranian" "w1" true false).result =
      .ok ⟨stAlice.pg.nextId, "Ponzu", "Pomeranian", "w1"⟩ ∧
    (⟨stAlice.pg.nextId, "Ponzu", "Pomeranian", "w1"⟩ : Dog) ∈
      (createDog stAlice "Ponzu" "Pomeranian" "w1" true false).state.pg.rows ∧
    (createDog stAlice "Ponzu" "Pomeranian" "w1" true false).state.mongo = stAlice.mongo ∧
    (∀ w ∈ (createDog stAlice "Ponzu" "Pomeranian" "w1" true false).state.mongo.users, ∀ l,
      (resolveUserDogs (createDog stAlice "Ponzu" "Pomeranian" "w1" true false).state w
        true).result = .ok l →
      (⟨stAlice.pg.nextId, "Ponzu", "Pomeranian", "w1"⟩ : Dog) ∉ l) :=
  C2_amended_partial_write stAlice "Ponzu" "Pomeranian" "w1" (by decide) (by decide)

/-- Claim C9: with a non-empty `dogIds`, the `User.dogs` resolution is
ordered by the relational table's natural order (it is a sub-sequence of
the table) and does not depend on the order of `dogIds`: two walkers
whose `dogIds` hold the same ids resolve to the identical row sequence. -/
theorem C9_dogs_follow_table_order (st : State) (w w' : Walker)
    (hne : w.dogIds ≠ [])
    (hset : ∀ i : Nat, i ∈ w.dogIds ↔ i ∈ w'.dogIds) :
    (resolveUserDogs st w true).result = (resolveUserDogs st w' true).result ∧
    ∃ l, (resolveUserDogs st w true).result = .ok l ∧ l.Sublist st.pg.rows := by
  have hne' : w'.dogIds ≠ [] := by
    intro h0
    rcases List.exists_mem_of_ne_nil w.dogIds hne with ⟨x, hx⟩
    have hx' := (hset x).mp hx
    rw [h0] at hx'
    simp at hx'
  rw [resolveUserDogs_of_ne true hne, resolveUserDogs_of_ne true hne']
  have hfilter : st.pg.rows.filter (fun d => decide (d.id ∈ w.dogIds)) =
      st.pg.rows.filter (fun d => decide (d.id ∈ w'.dogIds)) :=
    List.filter_congr (fun d _ => by simp [hset d.id])
  refine ⟨by simp [hfilter], ?_⟩
  exact ⟨_, rfl, List.filter_sublist _⟩

theorem C9_dogs_follow_table_order_witness :
    (resolveUserDogs stTwoDogs ⟨"w1", "Ann", [2, 1]⟩ true).result =
      (resolveUserDogs stTwoDogs ⟨"w2", "Bea", [1, 2, 2]⟩ true).result ∧
    ∃ l, (resolveUserDogs stTwoDogs ⟨"w1", "Ann", [2, 1]⟩ true).result = .ok l ∧
      l.Sublist stTwoDogs.pg.rows :=
  C9_dogs_follow_table_order stTwoDogs ⟨"w1", "Ann", [2, 1]⟩ ⟨"w2", "Bea", [1, 2, 2]⟩
    (by decide)
    (fun i => by simp only [List.mem_cons, List.not_mem_nil, or_false]; tauto)

/-- Claim C4: a successful `createDog(n, b, w)` against an existing walker
leaves the new row visible to `Query.dogs` with exactly the requested
name, breed and walker id, and the walker's `User.dogs` field resolves to
a sequence containing that row. -/
theorem C4_roundtrip (st : State) (name breed wid : String) (w : Walker)
    (hw : findWalker st.mongo.users wid = some w)
    (hbreed : breed.length ≤ 60) :
    (createDog st name breed wid true true).result =
      .ok ⟨st.pg.nextId, name, breed, wid⟩ ∧
    (∃ ds, listDogs (createDog st name breed wid true true).state true = .ok ds ∧
      ⟨st.pg.nextId, name, breed, wid⟩ ∈ ds) ∧
    (∃ w', findWalker (createDog st name breed wid true true).state.mongo.users wid =
        some w' ∧
      ∃ l, (resolveUserDogs (createDog st name breed wid true true).state w' true).result =
          .ok l ∧
        (⟨st.pg.nextId, name, breed, wid⟩ : Dog) ∈ l) := by
  rw [createDog_ok_push hbreed]
  refine ⟨rfl, ⟨_, rfl, by simp⟩, ?_⟩
  refine ⟨{ w with dogIds := w.dogIds ++ [st.pg.nextId] },
    findWalker_pushDogId st.pg.nextId hw, ?_⟩
  have hne : ({ w with dogIds := w.dogIds ++ [st.pg.nextId] } : Walker).dogIds ≠ [] := by
    simp
  rw [resolveUserDogs_of_ne true hne]
  refine ⟨_, rfl, ?_⟩
  rw [List.mem_filter]
  refine ⟨by simp, by simp⟩

theorem C4_roundtrip_witness :
    (createDog stAlice "Ponzu" "Pomeranian" "w1" true true).result =
      .ok ⟨stAlice.pg.nextId, "Ponzu", "Pomeranian", "w1"⟩ ∧
    (∃ ds, listDogs (createDog stAlice "Ponzu" "Pomeranian" "w1" true true).state true =
        .ok ds ∧
      ⟨stAlice.pg.nextId, "Ponzu", "Pomeranian", "w1"⟩ ∈ ds) ∧
    (∃ w', findWalker
        (createDog stAlice "Ponzu" "Pomeranian" "w1" true true).state.mongo.users "w1" =
        some w' ∧
      ∃ l, (resolveUserDogs (createDog stAlice "Ponzu" "Pomeranian" "w1" true true).state
          w' true).result = .ok l ∧
        (⟨stAlice.pg.nextId, "Ponzu", "Pomeranian", "w1"⟩ : Dog) ∈ l) :=
  C4_roundtrip stAlice "Ponzu" "Pomeranian" "w1" ⟨"w1", "Alice", []⟩ (by decide) (by decide)

/-- Claim C7 as stated is false: a dog created with a dangling `walkerId`
string can later be captured by a walker whose store-generated id happens
to equal that string; the resulting state is reachable through the create
operations with no step-2 failure, yet the walker's `dogIds` does not
contain the dog's id. -/
theorem C7_integrity_broken_by_id_capture :
    Reachable stC7bad ∧ ¬ RefIntegrity stC7bad := by
  constructor
  · exact .stepUser "Alice" "w0" (by decide) (.stepDog "Rex" "Lab" "w0" .init rfl) rfl
  · intro h
    have h1 : (⟨1, "Rex", "Lab", "w0"⟩ : Dog) ∈ stC7bad.pg.rows := by decide
    have h2 : (⟨"w0", "Alice", []⟩ : Walker) ∈ stC7bad.mongo.users := by decide
    have h3 := h _ h1 _ h2 (by decide)
    simp at h3

/-- Claim C7 amended: if additionally each store-generated walker id is
fresh with respect to the `walkerId` strings already present in dog rows
(so dangling references are never captured), then in every reachable
state every dog row whose `walkerId` denotes an existing walker appears
exactly once in that walker's `dogIds`. -/
theorem C7_amended_integrity (st : State) (h : ReachableStrong st) : RefIntegrity st :=
  (storeInv_of_reachableStrong h).integ

theorem C7_amended_integrity_witness : RefIntegrity stC7good :=
  C7_amended_integrity stC7good
    (.stepDog "Ponzu" "Pom" "w1" (.stepUser "Alice" "w1" (by decide) (by decide) .init rfl) rfl)
